import Mathlib

/-!
Verification development for the two core subsystems of the repository:

* the background-sync queue facade `BackgroundSyncQueueStore`
  (src/packages/sync/src/store.ts), layered over the durable entry store
  `BackgroundSyncQueueDb` (db.ts, modelled from the spec since only its
  contract is given);
* the `NetworkFirst` fetch strategy
  (src/packages/sw/src/cache/NetworkFirst.ts).

All state is passed explicitly; asynchronous effects (fetch, timer, cache)
are resolved by an explicit environment record, matching the spec's
single-threaded first-settle-wins model.
-/

set_option autoImplicit false

/-- One persisted queue entry (`BackgroundSyncQueueStoreEntry`): a globally
unique integer id, the queue-name partition, and an opaque request snapshot
(modelled as an opaque numeric payload, never interpreted by the store). -/
structure QueueStoreEntry where
  id : Int
  queueName : String
  requestData : Nat
deriving DecidableEq

/-- An entry as supplied by a caller (`UnidentifiedQueueStoreEntry`): the id
is optional — unset means "let the store auto-assign". -/
structure UnidentifiedQueueStoreEntry where
  id : Option Int
  queueName : String
  requestData : Nat
deriving DecidableEq

/-- Modelled from the spec: the Durable Entry Store (`BackgroundSyncQueueDb`
in db.ts, which is not part of src). `entries` is the stored multiset of
entries in insertion order; `nextId` is the auto-increment key generator,
which per the spec always hands out an integer strictly greater than any id
it ever issued. -/
structure BackgroundSyncQueueDb where
  entries : List QueueStoreEntry
  nextId : Int
deriving DecidableEq

/-- Smallest id present in a list of entries, or `none` when empty. -/
def minIdOf : List QueueStoreEntry → Option Int
  | [] => none
  | e :: es =>
    match minIdOf es with
    | none => some e.id
    | some m => some (min e.id m)

/-- Entry with the least id (first stored wins ties; ids are unique on
reachable states so ties never arise). -/
def minEntryById : List QueueStoreEntry → Option QueueStoreEntry
  | [] => none
  | e :: es =>
    match minEntryById es with
    | none => some e
    | some m => if e.id ≤ m.id then some e else some m

/-- Entry with the greatest id (first stored wins ties). -/
def maxEntryById : List QueueStoreEntry → Option QueueStoreEntry
  | [] => none
  | e :: es =>
    match maxEntryById es with
    | none => some e
    | some m => if m.id ≤ e.id then some m else some e

/-- Insert an entry into a list that is ascending by id, keeping it sorted. -/
def insertById (e : QueueStoreEntry) : List QueueStoreEntry → List QueueStoreEntry
  | [] => [e]
  | x :: xs => if e.id ≤ x.id then e :: x :: xs else x :: insertById e xs

/-- Sort a list of entries into ascending id order (insertion sort). -/
def sortById (l : List QueueStoreEntry) : List QueueStoreEntry :=
  l.foldr insertById []

/-- Modelled from the spec: `addEntry` inserts the entry; an unset id is
auto-assigned from the strictly increasing generator, a set id is used
verbatim. -/
def BackgroundSyncQueueDb.addEntry (db : BackgroundSyncQueueDb)
    (entry : UnidentifiedQueueStoreEntry) : BackgroundSyncQueueDb :=
  match entry.id with
  | some i => { db with entries := db.entries ++ [⟨i, entry.queueName, entry.requestData⟩] }
  | none =>
    { entries := db.entries ++ [⟨db.nextId, entry.queueName, entry.requestData⟩],
      nextId := db.nextId + 1 }

/-- Modelled from the spec: the smallest id currently stored across ALL
queues, or `none` if the store is empty. -/
def BackgroundSyncQueueDb.getFirstEntryId (db : BackgroundSyncQueueDb) : Option Int :=
  minIdOf db.entries

/-- Modelled from the spec: entry with the min id among entries of the given
queue name, or `none`. -/
def BackgroundSyncQueueDb.getFirstEntryByQueueName (db : BackgroundSyncQueueDb)
    (name : String) : Option QueueStoreEntry :=
  minEntryById (db.entries.filter (fun e => e.queueName == name))

/-- Modelled from the spec: entry with the max id among entries of the given
queue name, or `none`. -/
def BackgroundSyncQueueDb.getLastEntryByQueueName (db : BackgroundSyncQueueDb)
    (name : String) : Option QueueStoreEntry :=
  maxEntryById (db.entries.filter (fun e => e.queueName == name))

/-- Modelled from the spec: all entries of the given queue name in ascending
id order. -/
def BackgroundSyncQueueDb.getAllEntriesByQueueName (db : BackgroundSyncQueueDb)
    (name : String) : List QueueStoreEntry :=
  sortById (db.entries.filter (fun e => e.queueName == name))

/-- Modelled from the spec: number of entries of the given queue name. -/
def BackgroundSyncQueueDb.getEntryCountByQueueName (db : BackgroundSyncQueueDb)
    (name : String) : Nat :=
  (db.entries.filter (fun e => e.queueName == name)).length

/-- Modelled from the spec: remove the entry with the given id if present,
no-op otherwise. -/
def BackgroundSyncQueueDb.deleteEntry (db : BackgroundSyncQueueDb) (id : Int) :
    BackgroundSyncQueueDb :=
  { db with entries := db.entries.filter (fun e => e.id != id) }

/-- A fresh, empty store. The auto-increment generator of the underlying
IndexedDB object store issues 1 as its first key. -/
def emptyDb : BackgroundSyncQueueDb := ⟨[], 1⟩

/-- The queue facade of src/packages/sync/src/store.ts: it carries the queue
name it stamps on every entry. Its `_queueDb` field is the store state,
passed explicitly to each operation below. -/
structure BackgroundSyncQueueStore where
  _queueName : String

/-- `pushEntry` (store.ts, lines 42-47): deletes the caller's `id` field,
stamps `queueName`, then delegates to `addEntry`. The second component is
the caller's entry object as it stands after the call (the code mutates the
argument in place). -/
def BackgroundSyncQueueStore.pushEntry (self : BackgroundSyncQueueStore)
    (db : BackgroundSyncQueueDb) (entry : UnidentifiedQueueStoreEntry) :
    BackgroundSyncQueueDb × UnidentifiedQueueStoreEntry :=
  let entry := { entry with id := none, queueName := self._queueName }
  (db.addEntry entry, entry)

/-- `unshiftEntry` (store.ts, lines 54-67): reads the global minimum id and,
when that id is truthy — in JavaScript `if (firstId)` is false exactly when
`firstId` is `undefined` or `0` — sets the entry's id to `firstId - 1`;
otherwise it deletes the id so the store auto-assigns. Then stamps
`queueName` and delegates to `addEntry`. Second component as in
`pushEntry`. -/
def BackgroundSyncQueueStore.unshiftEntry (self : BackgroundSyncQueueStore)
    (db : BackgroundSyncQueueDb) (entry : UnidentifiedQueueStoreEntry) :
    BackgroundSyncQueueDb × UnidentifiedQueueStoreEntry :=
  let entry :=
    match db.getFirstEntryId with
    | some i =>
      if i = 0 then { entry with id := none }
      else { entry with id := some (i - 1) }
    | none => { entry with id := none }
  let entry := { entry with queueName := self._queueName }
  (db.addEntry entry, entry)

/-- `deleteEntry` (store.ts, lines 115-117): direct pass-through to the db. -/
def BackgroundSyncQueueStore.deleteEntry (self : BackgroundSyncQueueStore)
    (db : BackgroundSyncQueueDb) (id : Int) : BackgroundSyncQueueDb :=
  db.deleteEntry id

/-- `_removeEntry` (store.ts, lines 126-131): delete the given entry (when
present) and return it. -/
def BackgroundSyncQueueStore._removeEntry (self : BackgroundSyncQueueStore)
    (db : BackgroundSyncQueueDb) (entry : Option QueueStoreEntry) :
    BackgroundSyncQueueDb × Option QueueStoreEntry :=
  match entry with
  | some e => (self.deleteEntry db e.id, some e)
  | none => (db, none)

/-- `popEntry` (store.ts, lines 74-76): remove and return the max-id entry
of this queue. -/
def BackgroundSyncQueueStore.popEntry (self : BackgroundSyncQueueStore)
    (db : BackgroundSyncQueueDb) : BackgroundSyncQueueDb × Option QueueStoreEntry :=
  self._removeEntry db (db.getLastEntryByQueueName self._queueName)

/-- `shiftEntry` (store.ts, lines 83-85): remove and return the min-id entry
of this queue. -/
def BackgroundSyncQueueStore.shiftEntry (self : BackgroundSyncQueueStore)
    (db : BackgroundSyncQueueDb) : BackgroundSyncQueueDb × Option QueueStoreEntry :=
  self._removeEntry db (db.getFirstEntryByQueueName self._queueName)

/-- `getAll` (store.ts, lines 92-94): all entries of this queue, ascending
by id. -/
def BackgroundSyncQueueStore.getAll (self : BackgroundSyncQueueStore)
    (db : BackgroundSyncQueueDb) : List QueueStoreEntry :=
  db.getAllEntriesByQueueName self._queueName

/-- `size` (store.ts, lines 101-103): entry count of this queue. -/
def BackgroundSyncQueueStore.size (self : BackgroundSyncQueueStore)
    (db : BackgroundSyncQueueDb) : Nat :=
  db.getEntryCountByQueueName self._queueName

/-- Apply a state transformer `n` times (used to state that repeated calls
leave an empty queue untouched). -/
def applyN {α : Type} (f : α → α) : Nat → α → α
  | 0, a => a
  | n + 1, a => applyN f n (f a)

/-- A JavaScript `Error` value: only its message is observable here. -/
structure JSError where
  message : String
deriving DecidableEq

/-- A fetch `Response`: body, status, status text and header list. Header
lookup is by name, first match wins. -/
structure Response where
  body : String
  status : Nat
  statusText : String
  headers : List (String × String)
deriving DecidableEq

/-- `Headers.get`: the value stored under the given header name, or `none`
(JavaScript `null`). -/
def headersGet (headers : List (String × String)) (key : String) : Option String :=
  match headers.find? (fun p => p.1 == key) with
  | some p => some p.2
  | none => none

/-- Modelled from the spec: `CACHE_TIMESTAMP_HEADER`, the fixed header-name
constant exported by BaseStrategy (not part of src); its concrete value is
an opaque stable string. -/
def CACHE_TIMESTAMP_HEADER : String := "sw-cache-timestamp"

/-- The `cacheableResponse` policy (`CacheableResponseOptions`): optional
status allow-list and optional required-header map. -/
structure CacheableResponseOptions where
  statuses : Option (List Nat)
  headers : Option (List (String × String))
deriving DecidableEq

/-- The configured network timeout: a JavaScript number of seconds, which is
either finite or `Infinity`. -/
inductive NetworkTimeoutSetting where
  | finite (seconds : Nat)
  | infinity
deriving DecidableEq

/-- `NetworkFriendlyOptions`: the recognized strategy options, each may be
left unset. `cacheableResponse` set to `false` or left unset are both
modelled as `none` (the constructor collapses them with `?? false`). -/
structure NetworkFriendlyOptions where
  networkTimeoutInSeconds : Option NetworkTimeoutSetting
  cacheableResponse : Option CacheableResponseOptions

/-- The `NetworkFirst` strategy instance state set up by its constructor. -/
structure NetworkFirst where
  cacheName : String
  networkTimeoutSeconds : NetworkTimeoutSetting
  cacheableResponse : Option CacheableResponseOptions

/-- The `NetworkFirst` constructor (NetworkFirst.ts, lines 11-15):
`networkTimeoutInSeconds ?? 10`, `cacheableResponse ?? false`. -/
def mkNetworkFirst (cacheName : String) (options : NetworkFriendlyOptions) :
    NetworkFirst :=
  { cacheName := cacheName,
    networkTimeoutSeconds := options.networkTimeoutInSeconds.getD (NetworkTimeoutSetting.finite 10),
    cacheableResponse := options.cacheableResponse }

/-- `validateResponse` (NetworkFirst.ts, lines 68-82): a disabled policy is
always valid; otherwise the destructured `statuses`/`headers` default to
empty, the status check runs only when the status list is non-empty, the
header check only when the header map is non-empty. -/
def validateResponse (cacheableResponse : Option CacheableResponseOptions)
    (response : Response) : Bool :=
  match cacheableResponse with
  | none => true
  | some policy =>
    let statuses := policy.statuses.getD []
    let headers := policy.headers.getD []
    let isStatusValid := if statuses.length > 0 then statuses.contains response.status else true
    let isHeaderValid :=
      if headers.length > 0 then
        headers.all (fun p => headersGet response.headers p.1 == some p.2)
      else true
    isStatusValid && isHeaderValid

/-- `addTimestampHeader` (NetworkFirst.ts, lines 55-66): build a new response
from the original's body/status/statusText with the timestamp header
appended (`Date.now().toString()`, decimal milliseconds). -/
def addTimestampHeader (now : Nat) (response : Response) : Response :=
  { body := response.body, status := response.status, statusText := response.statusText,
    headers := response.headers ++ [(CACHE_TIMESTAMP_HEADER, toString now)] }

/-- The asynchronous environment one `handleRequest` call runs in: the
outcome of `fetch(request)`, whether the fetch settles before the parallel
timer, the result of `cache.match(request)`, whether the fire-and-forget
`cache.put` succeeds, and the clock value read by `Date.now()`. -/
structure FetchEnv where
  fetchResult : Except JSError Response
  fetchBeatsTimer : Bool
  cacheMatch : Option Response
  putSucceeds : Bool
  now : Nat

/-- The rejection produced by the timeout timer (NetworkFirst.ts, line 96). -/
def timeoutError (seconds : Nat) : JSError :=
  ⟨"Network timed out after " ++ toString seconds ++ " seconds"⟩

/-- `fetchWithTimeout` (NetworkFirst.ts, lines 89-107): with a finite
timeout the fetch races a rejection timer, first settled wins; with
`Infinity` no timer runs and the result is the fetch outcome alone. -/
def fetchWithTimeout (networkTimeoutSeconds : NetworkTimeoutSetting)
    (env : FetchEnv) : Except JSError Response :=
  match networkTimeoutSeconds with
  | .infinity => env.fetchResult
  | .finite t =>
    if env.fetchBeatsTimer then env.fetchResult else Except.error (timeoutError t)

/-- What one `handleRequest` call produces: the value returned (or error
thrown) to the caller, plus the annotated response handed to the
fire-and-forget `cache.put`, when the write was started at all. -/
structure HandleOutcome where
  result : Except JSError Response
  cachePut : Option Response

/-- Modelled from the spec: the `NetworkFallbackError` of the error
taxonomy — raised when both network and cache fail. The code realizes it as
a plain `Error` carrying this fixed message (NetworkFirst.ts, line 35). -/
def NetworkFallbackError : JSError := ⟨"No response received from fetch: Timeout"⟩

/-- `handleRequest` (NetworkFirst.ts, lines 23-37): try the network (with
timeout); on success validate and, if valid, start the cache write
(`putInCache` awaits `openCache` but not `cache.put`, so a put failure is
never observed) and return the original response; on any failure consult
the cache and either return the hit unchanged or throw the fixed fallback
error. `openCache` is modelled from the spec's cache contract
(`open(name) → CacheHandle`, no failure mode). -/
def handleRequest (strategy : NetworkFirst) (env : FetchEnv) : HandleOutcome :=
  match fetchWithTimeout strategy.networkTimeoutSeconds env with
  | .ok res =>
    if validateResponse strategy.cacheableResponse res then
      { result := .ok res, cachePut := some (addTimestampHeader env.now res) }
    else
      { result := .ok res, cachePut := none }
  | .error _ =>
    match env.cacheMatch with
    | some response => { result := .ok response, cachePut := none }
    | none => { result := .error NetworkFallbackError, cachePut := none }

/-- The spec's wording of the validation rule, stated independently of the
code: valid iff the policy is disabled, or the status list is empty or
contains the status, and the header map is empty or every required header
equals its expected value. -/
def ValidationSpec (cacheableResponse : Option CacheableResponseOptions)
    (response : Response) : Prop :=
  cacheableResponse = none ∨
    ∃ policy, cacheableResponse = some policy ∧
      (policy.statuses.getD [] = [] ∨ response.status ∈ policy.statuses.getD []) ∧
      (policy.headers.getD [] = [] ∨
        ∀ p ∈ policy.headers.getD [], headersGet response.headers p.1 = some p.2)

/-- The push-push-shift-shift-shift experiment of the FIFO law, returning
the three values the queue hands back. -/
def fifoScenario (q : String) (db : BackgroundSyncQueueDb)
    (a b : UnidentifiedQueueStoreEntry) :
    Option QueueStoreEntry × Option QueueStoreEntry × Option QueueStoreEntry :=
  let S := BackgroundSyncQueueStore.mk q
  let s2 := (S.pushEntry (S.pushEntry db a).1 b).1
  let p1 := S.shiftEntry s2
  let p2 := S.shiftEntry p1.1
  let p3 := S.shiftEntry p2.1
  (p1.2, p2.2, p3.2)

/-- The push-then-unshift experiment of the head-insertion law, returning
the payloads `getAll` reports afterwards, in ascending id order. -/
def headInsertScenario (q : String) (db : BackgroundSyncQueueDb)
    (a b : UnidentifiedQueueStoreEntry) : List Nat :=
  let S := BackgroundSyncQueueStore.mk q
  let s2 := (S.unshiftEntry (S.pushEntry db a).1 b).1
  (S.getAll s2).map (fun e => e.requestData)

theorem minIdOf_eq_none_iff (l : List QueueStoreEntry) : minIdOf l = none ↔ l = [] := by
  cases l with
  | nil => simp [minIdOf]
  | cons e es =>
    simp only [minIdOf]
    cases h : minIdOf es <;> simp

theorem minIdOf_le (l : List QueueStoreEntry) (m : Int) (h : minIdOf l = some m) :
    ∀ e ∈ l, m ≤ e.id := by
  induction l generalizing m with
  | nil => simp [minIdOf] at h
  | cons x xs ih =>
    simp only [minIdOf] at h
    cases hm : minIdOf xs with
    | none =>
      rw [hm] at h
      have hx : x.id = m := by simpa using h
      have hxs : xs = [] := (minIdOf_eq_none_iff xs).mp hm
      subst hxs
      intro e he
      have : e = x := by simpa using he
      subst this
      exact le_of_eq hx.symm
    | some k =>
      rw [hm] at h
      have hmin : min x.id k = m := by simpa using h
      intro e he
      rcases List.mem_cons.mp he with he | he
      · subst he
        rw [← hmin]
        exact min_le_left _ _
      · have hk := ih k hm e he
        have h2 : m ≤ k := by
          rw [← hmin]
          exact min_le_right _ _
        exact le_trans h2 hk

theorem minIdOf_mem (l : List QueueStoreEntry) (m : Int) (h : minIdOf l = some m) :
    ∃ e ∈ l, e.id = m := by
  induction l generalizing m with
  | nil => simp [minIdOf] at h
  | cons x xs ih =>
    simp only [minIdOf] at h
    cases hm : minIdOf xs with
    | none =>
      rw [hm] at h
      exact ⟨x, List.mem_cons_self x xs, by simpa using h⟩
    | some k =>
      rw [hm] at h
      have hmin : min x.id k = m := by simpa using h
      rcases le_or_lt x.id k with hle | hlt
      · exact ⟨x, List.mem_cons_self x xs, by rw [← hmin, min_eq_left hle]⟩
      · obtain ⟨e, he, hek⟩ := ih k hm
        exact ⟨e, List.mem_cons_of_mem x he, by rw [hek, ← hmin, min_eq_right (le_of_lt hlt)]⟩

theorem minIdOf_append_of_none (l : List QueueStoreEntry) (x : QueueStoreEntry)
    (h : minIdOf l = none) : minIdOf (l ++ [x]) = some x.id := by
  have : l = [] := (minIdOf_eq_none_iff l).mp h
  subst this
  simp [minIdOf]

theorem minIdOf_append_of_some (l : List QueueStoreEntry) (x : QueueStoreEntry) (m : Int)
    (h : minIdOf l = some m) : minIdOf (l ++ [x]) = some (min m x.id) := by
  induction l generalizing m with
  | nil => simp [minIdOf] at h
  | cons y ys ih =>
    simp only [minIdOf] at h
    cases hm : minIdOf ys with
    | none =>
      rw [hm] at h
      have hys : ys = [] := (minIdOf_eq_none_iff ys).mp hm
      subst hys
      have hy : y.id = m := by simpa using h
      subst hy
      simp [minIdOf]
    | some k =>
      rw [hm] at h
      have hmin : min y.id k = m := by simpa using h
      have hih := ih k hm
      simp only [List.cons_append, minIdOf, List.append_eq, hih]
      rw [← hmin, min_assoc]

theorem minEntryById_singleton (x : QueueStoreEntry) : minEntryById [x] = some x := rfl

theorem minEntryById_pair (x y : QueueStoreEntry) (hxy : x.id ≤ y.id) :
    minEntryById [x, y] = some x := by
  simp [minEntryById, hxy]

theorem sortById_pair_swap (x y : QueueStoreEntry) (hyx : y.id < x.id) :
    sortById [x, y] = [y, x] := by
  have hn : ¬ x.id ≤ y.id := not_le.mpr hyx
  simp [sortById, insertById, hn]

theorem filter_queue_of_sub (q : String) (l l2 : List QueueStoreEntry)
    (hsub : ∀ e ∈ l2, e ∈ l) (h : ∀ e ∈ l, e.queueName ≠ q) :
    l2.filter (fun e => e.queueName == q) = [] := by
  refine List.filter_eq_nil_iff.mpr ?_
  intro a ha
  simpa using h a (hsub a ha)

theorem pushEntry_run (q : String) (db : BackgroundSyncQueueDb)
    (e : UnidentifiedQueueStoreEntry) :
    (BackgroundSyncQueueStore.mk q).pushEntry db e =
      ({ entries := db.entries ++ [⟨db.nextId, q, e.requestData⟩], nextId := db.nextId + 1 },
       ⟨none, q, e.requestData⟩) := rfl

theorem unshiftEntry_run_of_none (q : String) (db : BackgroundSyncQueueDb)
    (e : UnidentifiedQueueStoreEntry) (h : db.getFirstEntryId = none) :
    (BackgroundSyncQueueStore.mk q).unshiftEntry db e =
      ({ entries := db.entries ++ [⟨db.nextId, q, e.requestData⟩], nextId := db.nextId + 1 },
       ⟨none, q, e.requestData⟩) := by
  simp [BackgroundSyncQueueStore.unshiftEntry, h, BackgroundSyncQueueDb.addEntry]

theorem unshiftEntry_run_of_zero (q : String) (db : BackgroundSyncQueueDb)
    (e : UnidentifiedQueueStoreEntry) (h : db.getFirstEntryId = some 0) :
    (BackgroundSyncQueueStore.mk q).unshiftEntry db e =
      ({ entries := db.entries ++ [⟨db.nextId, q, e.requestData⟩], nextId := db.nextId + 1 },
       ⟨none, q, e.requestData⟩) := by
  simp [BackgroundSyncQueueStore.unshiftEntry, h, BackgroundSyncQueueDb.addEntry]

theorem unshiftEntry_run_of_some (q : String) (db : BackgroundSyncQueueDb)
    (e : UnidentifiedQueueStoreEntry) (m : Int) (h : db.getFirstEntryId = some m)
    (hm : m ≠ 0) :
    (BackgroundSyncQueueStore.mk q).unshiftEntry db e =
      ({ db with entries := db.entries ++ [⟨m - 1, q, e.requestData⟩] },
       ⟨some (m - 1), q, e.requestData⟩) := by
  simp [BackgroundSyncQueueStore.unshiftEntry, h, hm, BackgroundSyncQueueDb.addEntry]

theorem shiftEntry_eval (q : String) (l : List QueueStoreEntry) (nid : Int)
    (x : QueueStoreEntry) (i : Int)
    (hx : minEntryById (l.filter (fun e => e.queueName == q)) = some x)
    (hi : x.id = i) :
    (BackgroundSyncQueueStore.mk q).shiftEntry ⟨l, nid⟩ =
      (⟨l.filter (fun e => e.id != i), nid⟩, some x) := by
  subst hi
  simp [BackgroundSyncQueueStore.shiftEntry, BackgroundSyncQueueDb.getFirstEntryByQueueName,
    hx, BackgroundSyncQueueStore._removeEntry, BackgroundSyncQueueStore.deleteEntry,
    BackgroundSyncQueueDb.deleteEntry]

theorem shiftEntry_eval_none (q : String) (db : BackgroundSyncQueueDb)
    (hx : db.entries.filter (fun e => e.queueName == q) = []) :
    (BackgroundSyncQueueStore.mk q).shiftEntry db = (db, none) := by
  simp [BackgroundSyncQueueStore.shiftEntry, BackgroundSyncQueueDb.getFirstEntryByQueueName,
    hx, minEntryById, BackgroundSyncQueueStore._removeEntry]

theorem popEntry_eval_none (q : String) (db : BackgroundSyncQueueDb)
    (hx : db.entries.filter (fun e => e.queueName == q) = []) :
    (BackgroundSyncQueueStore.mk q).popEntry db = (db, none) := by
  simp [BackgroundSyncQueueStore.popEntry, BackgroundSyncQueueDb.getLastEntryByQueueName,
    hx, maxEntryById, BackgroundSyncQueueStore._removeEntry]

/-- A store with global minimum id 0, reached from the fresh store by one
push (id 1) followed by one unshift (id 0) on queue "q". -/
def zeroMinStore : BackgroundSyncQueueDb :=
  ((BackgroundSyncQueueStore.mk "q").unshiftEntry
    ((BackgroundSyncQueueStore.mk "q").pushEntry emptyDb ⟨none, "q", 0⟩).1
    ⟨none, "q", 1⟩).1

/-- C1: evaluation of `unshiftEntry` at `zeroMinStore`, a reachable store
whose global minimum id is 0. `getFirstEntryId` reports the minimum 0, yet
the next head insertion — which per the spec must receive id `0 - 1 = -1`,
strictly below every stored id — is auto-assigned id 2 instead
(`if (firstId)` is false for 0), so it lands LAST in id order, and the
caller's entry keeps no id. -/
theorem unshiftEntry_zero_min_eval :
    zeroMinStore.getFirstEntryId = some 0
    ∧ ((BackgroundSyncQueueStore.mk "q").unshiftEntry zeroMinStore
        ⟨none, "q", 2⟩).1.entries.map (fun e => e.id) = [1, 0, 2]
    ∧ ((BackgroundSyncQueueStore.mk "q").getAll
        ((BackgroundSyncQueueStore.mk "q").unshiftEntry zeroMinStore ⟨none, "q", 2⟩).1).map
          (fun e => e.requestData) = [1, 0, 2]
    ∧ ((BackgroundSyncQueueStore.mk "q").unshiftEntry zeroMinStore ⟨none, "q", 2⟩).2.id
        = none := by
  decide

/-- C5: the FIFO law. On any store in which queue `q` holds no entry,
`pushEntry a; pushEntry b; shiftEntry; shiftEntry; shiftEntry` returns
the stored image of `a` (auto-assigned the lower id), then that of `b`,
then `none`. -/
theorem fifo_push_push_shift (q : String) (db : BackgroundSyncQueueDb)
    (a b : UnidentifiedQueueStoreEntry)
    (h : ∀ e ∈ db.entries, e.queueName ≠ q) :
    fifoScenario q db a b =
      (some ⟨db.nextId, q, a.requestData⟩, some ⟨db.nextId + 1, q, b.requestData⟩, none) := by
  have hfilter : db.entries.filter (fun e : QueueStoreEntry => e.queueName == q) = [] :=
    filter_queue_of_sub q db.entries db.entries (fun e he => he) h
  have hA0 : ((db.nextId : Int) != db.nextId) = false := by simp
  have hB1 : ((db.nextId + 1 : Int) != db.nextId) = true := by
    rw [bne_iff_ne]
    omega
  have hfq2 : ((db.entries ++ [(⟨db.nextId, q, a.requestData⟩ : QueueStoreEntry)]) ++
        [(⟨db.nextId + 1, q, b.requestData⟩ : QueueStoreEntry)]).filter
          (fun e : QueueStoreEntry => e.queueName == q)
      = [⟨db.nextId, q, a.requestData⟩, ⟨db.nextId + 1, q, b.requestData⟩] := by
    rw [List.filter_append, List.filter_append, hfilter]
    simp
  have h1 : (BackgroundSyncQueueStore.mk q).shiftEntry
      ⟨(db.entries ++ [(⟨db.nextId, q, a.requestData⟩ : QueueStoreEntry)]) ++ [(⟨db.nextId + 1, q, b.requestData⟩ : QueueStoreEntry)],
        db.nextId + 1 + 1⟩ =
      ((⟨((db.entries ++ [(⟨db.nextId, q, a.requestData⟩ : QueueStoreEntry)]) ++
            [(⟨db.nextId + 1, q, b.requestData⟩ : QueueStoreEntry)]).filter (fun e : QueueStoreEntry => e.id != db.nextId),
          db.nextId + 1 + 1⟩ : BackgroundSyncQueueDb),
        some ⟨db.nextId, q, a.requestData⟩) := by
    refine shiftEntry_eval q _ _ _ _ ?_ rfl
    rw [hfq2]
    exact minEntryById_pair _ _ (by show (db.nextId : Int) ≤ db.nextId + 1; omega)
  have hL3 : ((db.entries ++ [(⟨db.nextId, q, a.requestData⟩ : QueueStoreEntry)]) ++
        [(⟨db.nextId + 1, q, b.requestData⟩ : QueueStoreEntry)]).filter
          (fun e : QueueStoreEntry => e.id != db.nextId)
      = db.entries.filter (fun e : QueueStoreEntry => e.id != db.nextId) ++
          [(⟨db.nextId + 1, q, b.requestData⟩ : QueueStoreEntry)] := by
    rw [List.filter_append, List.filter_append]
    simp [hA0, hB1]
  have hq3 : (db.entries.filter (fun e : QueueStoreEntry => e.id != db.nextId) ++
        [(⟨db.nextId + 1, q, b.requestData⟩ : QueueStoreEntry)]).filter
          (fun e : QueueStoreEntry => e.queueName == q)
      = [(⟨db.nextId + 1, q, b.requestData⟩ : QueueStoreEntry)] := by
    rw [List.filter_append]
    rw [filter_queue_of_sub q db.entries _ (fun e he => (List.mem_filter.mp he).1) h]
    simp
  have h2 : (BackgroundSyncQueueStore.mk q).shiftEntry
      ⟨db.entries.filter (fun e : QueueStoreEntry => e.id != db.nextId) ++ [(⟨db.nextId + 1, q, b.requestData⟩ : QueueStoreEntry)],
        db.nextId + 1 + 1⟩ =
      ((⟨(db.entries.filter (fun e : QueueStoreEntry => e.id != db.nextId) ++
            [(⟨db.nextId + 1, q, b.requestData⟩ : QueueStoreEntry)]).filter (fun e : QueueStoreEntry => e.id != (db.nextId + 1)),
          db.nextId + 1 + 1⟩ : BackgroundSyncQueueDb),
        some ⟨db.nextId + 1, q, b.requestData⟩) := by
    refine shiftEntry_eval q _ _ _ _ ?_ rfl
    rw [hq3]
    exact minEntryById_singleton _
  have hL4q : ((db.entries.filter (fun e : QueueStoreEntry => e.id != db.nextId) ++
        [(⟨db.nextId + 1, q, b.requestData⟩ : QueueStoreEntry)]).filter
          (fun e : QueueStoreEntry => e.id != (db.nextId + 1))).filter (fun e : QueueStoreEntry => e.queueName == q) = [] := by
    refine filter_queue_of_sub q db.entries _ ?_ h
    intro e he
    have h1' := List.mem_filter.mp he
    rcases List.mem_append.mp h1'.1 with hmem | hmem
    · exact (List.mem_filter.mp hmem).1
    · exfalso
      have heq : e = ⟨db.nextId + 1, q, b.requestData⟩ := by simpa using hmem
      have h2' := h1'.2
      rw [heq] at h2'
      simp at h2'
  have h3 : (BackgroundSyncQueueStore.mk q).shiftEntry
      ⟨(db.entries.filter (fun e : QueueStoreEntry => e.id != db.nextId) ++
            [(⟨db.nextId + 1, q, b.requestData⟩ : QueueStoreEntry)]).filter (fun e : QueueStoreEntry => e.id != (db.nextId + 1)),
        db.nextId + 1 + 1⟩ =
      ((⟨(db.entries.filter (fun e : QueueStoreEntry => e.id != db.nextId) ++
            [(⟨db.nextId + 1, q, b.requestData⟩ : QueueStoreEntry)]).filter (fun e : QueueStoreEntry => e.id != (db.nextId + 1)),
        db.nextId + 1 + 1⟩ : BackgroundSyncQueueDb), none) :=
    shiftEntry_eval_none q _ hL4q
  have hgoal : fifoScenario q db a b =
      (((BackgroundSyncQueueStore.mk q).shiftEntry
          ⟨(db.entries ++ [(⟨db.nextId, q, a.requestData⟩ : QueueStoreEntry)]) ++
            [(⟨db.nextId + 1, q, b.requestData⟩ : QueueStoreEntry)], db.nextId + 1 + 1⟩).2,
       ((BackgroundSyncQueueStore.mk q).shiftEntry
          ((BackgroundSyncQueueStore.mk q).shiftEntry
            ⟨(db.entries ++ [(⟨db.nextId, q, a.requestData⟩ : QueueStoreEntry)]) ++
              [(⟨db.nextId + 1, q, b.requestData⟩ : QueueStoreEntry)], db.nextId + 1 + 1⟩).1).2,
       ((BackgroundSyncQueueStore.mk q).shiftEntry
          ((BackgroundSyncQueueStore.mk q).shiftEntry
            ((BackgroundSyncQueueStore.mk q).shiftEntry
              ⟨(db.entries ++ [(⟨db.nextId, q, a.requestData⟩ : QueueStoreEntry)]) ++
                [(⟨db.nextId + 1, q, b.requestData⟩ : QueueStoreEntry)], db.nextId + 1 + 1⟩).1).1).2) := rfl
  rw [hgoal]
  simp only [h1, hL3, h2, h3]

/-- C5 witness: the FIFO law run from a fresh store. -/
theorem fifo_push_push_shift_witness :
    fifoScenario "q" emptyDb ⟨none, "x", 1⟩ ⟨some 5, "y", 2⟩ =
      (some ⟨emptyDb.nextId, "q", 1⟩, some ⟨emptyDb.nextId + 1, "q", 2⟩, none) :=
  fifo_push_push_shift "q" emptyDb ⟨none, "x", 1⟩ ⟨some 5, "y", 2⟩ (by simp [emptyDb])

/-- C6 (amended): on any well-formed store — ids strictly below the
generator `nextId`, generator at least 1 — in which queue `q` is empty and
NO stored entry (of any queue) has id 0, `pushEntry a; unshiftEntry b`
leaves `getAll` reporting `[b, a]`: the head-inserted entry receives the
global minimum id minus 1 and so precedes the pushed entry. The no-id-0
side condition is forced by the truthiness test in `unshiftEntry` (see the
counterexample). -/
theorem push_unshift_getAll_head_order (q : String) (db : BackgroundSyncQueueDb)
    (a b : UnidentifiedQueueStoreEntry)
    (hq : ∀ e ∈ db.entries, e.queueName ≠ q)
    (h0 : ∀ e ∈ db.entries, e.id ≠ 0)
    (hlt : ∀ e ∈ db.entries, e.id < db.nextId)
    (h1 : 1 ≤ db.nextId) :
    headInsertScenario q db a b = [b.requestData, a.requestData] := by
  have hfilter : db.entries.filter (fun e : QueueStoreEntry => e.queueName == q) = [] :=
    filter_queue_of_sub q db.entries db.entries (fun e he => he) hq
  have hgoal : headInsertScenario q db a b =
      ((BackgroundSyncQueueStore.mk q).getAll
        ((BackgroundSyncQueueStore.mk q).unshiftEntry
          ⟨db.entries ++ [(⟨db.nextId, q, a.requestData⟩ : QueueStoreEntry)], db.nextId + 1⟩
          b).1).map (fun e => e.requestData) := rfl
  rw [hgoal]
  rcases hm : minIdOf db.entries with _ | m
  · -- the store held nothing at all before the push
    have hfid : (⟨db.entries ++ [(⟨db.nextId, q, a.requestData⟩ : QueueStoreEntry)],
        db.nextId + 1⟩ : BackgroundSyncQueueDb).getFirstEntryId = some db.nextId := by
      show minIdOf (db.entries ++ [(⟨db.nextId, q, a.requestData⟩ : QueueStoreEntry)])
        = some db.nextId
      exact minIdOf_append_of_none db.entries _ hm
    rw [unshiftEntry_run_of_some q _ b db.nextId hfid (by omega)]
    show (sortById (((db.entries ++ [(⟨db.nextId, q, a.requestData⟩ : QueueStoreEntry)]) ++
        [(⟨db.nextId - 1, q, b.requestData⟩ : QueueStoreEntry)]).filter
          (fun e : QueueStoreEntry => e.queueName == q))).map (fun e => e.requestData)
      = [b.requestData, a.requestData]
    have hfq : ((db.entries ++ [(⟨db.nextId, q, a.requestData⟩ : QueueStoreEntry)]) ++
        [(⟨db.nextId - 1, q, b.requestData⟩ : QueueStoreEntry)]).filter
          (fun e : QueueStoreEntry => e.queueName == q)
        = [⟨db.nextId, q, a.requestData⟩, ⟨db.nextId - 1, q, b.requestData⟩] := by
      rw [List.filter_append, List.filter_append, hfilter]
      simp
    rw [hfq, sortById_pair_swap _ _ (by show (db.nextId - 1 : Int) < db.nextId; omega)]
    simp
  · -- the store still held entries of other queues
    obtain ⟨e0, he0, he0id⟩ := minIdOf_mem db.entries m hm
    have hm0 : m ≠ 0 := by rw [← he0id]; exact h0 e0 he0
    have hmn : m < db.nextId := by rw [← he0id]; exact hlt e0 he0
    have hfid : (⟨db.entries ++ [(⟨db.nextId, q, a.requestData⟩ : QueueStoreEntry)],
        db.nextId + 1⟩ : BackgroundSyncQueueDb).getFirstEntryId = some m := by
      show minIdOf (db.entries ++ [(⟨db.nextId, q, a.requestData⟩ : QueueStoreEntry)])
        = some m
      rw [minIdOf_append_of_some db.entries _ m hm]
      congr 1
      show min m db.nextId = m
      exact min_eq_left (le_of_lt hmn)
    rw [unshiftEntry_run_of_some q _ b m hfid hm0]
    show (sortById (((db.entries ++ [(⟨db.nextId, q, a.requestData⟩ : QueueStoreEntry)]) ++
        [(⟨m - 1, q, b.requestData⟩ : QueueStoreEntry)]).filter
          (fun e : QueueStoreEntry => e.queueName == q))).map (fun e => e.requestData)
      = [b.requestData, a.requestData]
    have hfq : ((db.entries ++ [(⟨db.nextId, q, a.requestData⟩ : QueueStoreEntry)]) ++
        [(⟨m - 1, q, b.requestData⟩ : QueueStoreEntry)]).filter
          (fun e : QueueStoreEntry => e.queueName == q)
        = [⟨db.nextId, q, a.requestData⟩, ⟨m - 1, q, b.requestData⟩] := by
      rw [List.filter_append, List.filter_append, hfilter]
      simp
    rw [hfq, sortById_pair_swap _ _ (by show (m - 1 : Int) < db.nextId; omega)]
    simp

/-- C6 counterexample: a reachable store holding an id-0 entry under
another queue name ("other": push then unshift from fresh yields ids 1, 0)
while queue "q" is empty. `pushEntry a; unshiftEntry b` on "q" then yields
`getAll = [a, b]` — the unshifted entry is auto-assigned the LARGEST id
because `if (firstId)` treats the minimum id 0 as absent — refuting
`getAll = [b, a]` as universally claimed. -/
theorem push_unshift_getAll_counterexample :
    let dbC := ((BackgroundSyncQueueStore.mk "other").unshiftEntry
      ((BackgroundSyncQueueStore.mk "other").pushEntry emptyDb ⟨none, "other", 0⟩).1
      ⟨none, "other", 1⟩).1
    (BackgroundSyncQueueStore.mk "q").size dbC = 0
    ∧ headInsertScenario "q" dbC ⟨none, "q", 10⟩ ⟨none, "q", 20⟩ = [10, 20]
    ∧ headInsertScenario "q" dbC ⟨none, "q", 10⟩ ⟨none, "q", 20⟩ ≠ [20, 10] := by
  decide

/-- C6 witness: the amended head-insertion law run from a fresh store. -/
theorem push_unshift_getAll_head_order_witness :
    headInsertScenario "q" emptyDb ⟨none, "x", 7⟩ ⟨none, "y", 8⟩ = [8, 7] :=
  push_unshift_getAll_head_order "q" emptyDb ⟨none, "x", 7⟩ ⟨none, "y", 8⟩
    (by simp [emptyDb]) (by simp [emptyDb]) (by simp [emptyDb]) (by simp [emptyDb])

/-- C8: on any store in which queue `q` holds no entry, `popEntry` and
`shiftEntry` return `none` without modifying the store, and therefore do so
for any number of repeated calls. -/
theorem popEntry_shiftEntry_empty_idempotent (q : String) (db : BackgroundSyncQueueDb)
    (h : ∀ e ∈ db.entries, e.queueName ≠ q) :
    (BackgroundSyncQueueStore.mk q).popEntry db = (db, none)
    ∧ (BackgroundSyncQueueStore.mk q).shiftEntry db = (db, none)
    ∧ (∀ n, applyN (fun s => ((BackgroundSyncQueueStore.mk q).popEntry s).1) n db = db)
    ∧ (∀ n, applyN (fun s => ((BackgroundSyncQueueStore.mk q).shiftEntry s).1) n db = db) := by
  have hfilter : db.entries.filter (fun e : QueueStoreEntry => e.queueName == q) = [] :=
    filter_queue_of_sub q db.entries db.entries (fun e he => he) h
  have hpop := popEntry_eval_none q db hfilter
  have hshift := shiftEntry_eval_none q db hfilter
  refine ⟨hpop, hshift, ?_, ?_⟩
  · intro n
    induction n with
    | zero => rfl
    | succ k ih =>
      simp only [applyN]
      simpa [hpop] using ih
  · intro n
    induction n with
    | zero => rfl
    | succ k ih =>
      simp only [applyN]
      simpa [hshift] using ih

/-- C8 witness: instantiated on the fresh empty store with three repeats. -/
theorem popEntry_shiftEntry_empty_idempotent_witness :
    (BackgroundSyncQueueStore.mk "q").popEntry emptyDb = (emptyDb, none)
    ∧ (BackgroundSyncQueueStore.mk "q").shiftEntry emptyDb = (emptyDb, none)
    ∧ applyN (fun s => ((BackgroundSyncQueueStore.mk "q").popEntry s).1) 3 emptyDb = emptyDb
    ∧ applyN (fun s => ((BackgroundSyncQueueStore.mk "q").shiftEntry s).1) 3 emptyDb = emptyDb :=
  ⟨(popEntry_shiftEntry_empty_idempotent "q" emptyDb (by simp [emptyDb])).1,
   (popEntry_shiftEntry_empty_idempotent "q" emptyDb (by simp [emptyDb])).2.1,
   (popEntry_shiftEntry_empty_idempotent "q" emptyDb (by simp [emptyDb])).2.2.1 3,
   (popEntry_shiftEntry_empty_idempotent "q" emptyDb (by simp [emptyDb])).2.2.2 3⟩

/-- C9: the facade mutates the caller's entry object in place — `pushEntry`
deletes its id and stamps the queue name; `unshiftEntry` stamps the queue
name and sets the id to `min - 1` (nonzero global minimum) or deletes it
(empty store, or minimum id 0). -/
theorem pushEntry_unshiftEntry_mutate_argument (q : String) (db : BackgroundSyncQueueDb)
    (e : UnidentifiedQueueStoreEntry) :
    ((BackgroundSyncQueueStore.mk q).pushEntry db e).2 = { e with id := none, queueName := q }
    ∧ ((BackgroundSyncQueueStore.mk q).unshiftEntry db e).2.queueName = q
    ∧ (db.getFirstEntryId = none →
        ((BackgroundSyncQueueStore.mk q).unshiftEntry db e).2 =
          { e with id := none, queueName := q })
    ∧ (∀ m : Int, db.getFirstEntryId = some m → m ≠ 0 →
        ((BackgroundSyncQueueStore.mk q).unshiftEntry db e).2 =
          { e with id := some (m - 1), queueName := q })
    ∧ (db.getFirstEntryId = some 0 →
        ((BackgroundSyncQueueStore.mk q).unshiftEntry db e).2 =
          { e with id := none, queueName := q }) := by
  refine ⟨rfl, ?_, ?_, ?_, ?_⟩
  · rcases hm : db.getFirstEntryId with _ | m
    · rw [unshiftEntry_run_of_none q db e hm]
    · by_cases h0 : m = 0
      · subst h0
        rw [unshiftEntry_run_of_zero q db e hm]
      · rw [unshiftEntry_run_of_some q db e m hm h0]
  · intro hm
    rw [unshiftEntry_run_of_none q db e hm]
  · intro m hm h0
    rw [unshiftEntry_run_of_some q db e m hm h0]
  · intro hm
    rw [unshiftEntry_run_of_zero q db e hm]

/-- C9 witness: instantiated at a store of minimum id 5 (id becomes 4), the
empty store and a store of minimum id 0 (id deleted), with an entry that
arrives with a stale id and queue name. -/
theorem pushEntry_unshiftEntry_mutate_argument_witness :
    ((BackgroundSyncQueueStore.mk "q").pushEntry ⟨[⟨5, "z", 0⟩], 6⟩ ⟨some 9, "w", 3⟩).2
      = ⟨none, "q", 3⟩
    ∧ ((BackgroundSyncQueueStore.mk "q").unshiftEntry
        ⟨[⟨5, "z", 0⟩], 6⟩ ⟨some 9, "w", 3⟩).2.queueName = "q"
    ∧ ((BackgroundSyncQueueStore.mk "q").unshiftEntry emptyDb ⟨some 9, "w", 3⟩).2
      = ⟨none, "q", 3⟩
    ∧ ((BackgroundSyncQueueStore.mk "q").unshiftEntry ⟨[⟨5, "z", 0⟩], 6⟩ ⟨some 9, "w", 3⟩).2
      = ⟨some 4, "q", 3⟩
    ∧ ((BackgroundSyncQueueStore.mk "q").unshiftEntry ⟨[⟨0, "z", 0⟩], 1⟩ ⟨some 9, "w", 3⟩).2
      = ⟨none, "q", 3⟩ :=
  ⟨(pushEntry_unshiftEntry_mutate_argument "q" ⟨[⟨5, "z", 0⟩], 6⟩ ⟨some 9, "w", 3⟩).1,
   (pushEntry_unshiftEntry_mutate_argument "q" ⟨[⟨5, "z", 0⟩], 6⟩ ⟨some 9, "w", 3⟩).2.1,
   (pushEntry_unshiftEntry_mutate_argument "q" emptyDb ⟨some 9, "w", 3⟩).2.2.1 rfl,
   (pushEntry_unshiftEntry_mutate_argument "q" ⟨[⟨5, "z", 0⟩], 6⟩ ⟨some 9, "w", 3⟩).2.2.2.1 5
     rfl (by decide),
   (pushEntry_unshiftEntry_mutate_argument "q" ⟨[⟨0, "z", 0⟩], 1⟩ ⟨some 9, "w", 3⟩).2.2.2.2 rfl⟩

theorem ValidationSpec_some_iff (policy : CacheableResponseOptions) (r : Response) :
    ValidationSpec (some policy) r ↔
      (policy.statuses.getD [] = [] ∨ r.status ∈ policy.statuses.getD []) ∧
      (policy.headers.getD [] = [] ∨
        ∀ p ∈ policy.headers.getD [], headersGet r.headers p.1 = some p.2) := by
  simp [ValidationSpec]

theorem ite_length_guard {α : Type} (l : List α) (b : Bool) :
    ((if l.length > 0 then b else true) = true) ↔ (l = [] ∨ b = true) := by
  cases l <;> simp

/-- C2: `validateResponse` returns true exactly when the spec's validation
rule holds — policy disabled, or (status list empty OR status listed) AND
(header map empty OR every required header equal); in particular status 500
under policy `{statuses:[200]}` is never valid and status 200 with no
policy is always valid. -/
theorem validateResponse_iff_spec :
    (∀ (c : Option CacheableResponseOptions) (r : Response),
        validateResponse c r = true ↔ ValidationSpec c r)
    ∧ (∀ r : Response, r.status = 500 →
        validateResponse (some ⟨some [200], none⟩) r = false)
    ∧ (∀ r : Response, validateResponse none r = true) := by
  refine ⟨?_, ?_, ?_⟩
  · intro c r
    cases c with
    | none => simp [validateResponse, ValidationSpec]
    | some policy =>
      rw [ValidationSpec_some_iff]
      simp only [validateResponse]
      rw [Bool.and_eq_true, ite_length_guard, ite_length_guard]
      constructor
      · rintro ⟨hs, hh⟩
        constructor
        · rcases hs with hs | hs
          · exact Or.inl hs
          · exact Or.inr (by simpa using hs)
        · rcases hh with hh | hh
          · exact Or.inl hh
          · refine Or.inr fun p hp => ?_
            have := List.all_eq_true.mp hh p hp
            simpa using this
      · rintro ⟨hs, hh⟩
        constructor
        · rcases hs with hs | hs
          · exact Or.inl hs
          · exact Or.inr (by simpa using hs)
        · rcases hh with hh | hh
          · exact Or.inl hh
          · refine Or.inr (List.all_eq_true.mpr fun p hp => ?_)
            simpa using hh p hp
  · intro r hr
    simp [validateResponse, hr]
  · intro r
    rfl

/-- C2 witness: the two gating instances evaluated concretely. -/
theorem validateResponse_iff_spec_witness :
    validateResponse (some ⟨some [200], none⟩) ⟨"", 500, "", []⟩ = false
    ∧ validateResponse none ⟨"", 200, "", []⟩ = true :=
  ⟨validateResponse_iff_spec.2.1 ⟨"", 500, "", []⟩ rfl,
   validateResponse_iff_spec.2.2 ⟨"", 200, "", []⟩⟩

/-- C3: when the network path fails (error or timeout), `handleRequest`
falls back to the cache — a hit is returned unchanged, a miss raises the
fallback error, which carries a non-empty human-readable message; nothing
is retried (the outcome is final for this call). -/
theorem handleRequest_fallback (strategy : NetworkFirst) (env : FetchEnv) (err : JSError)
    (h : fetchWithTimeout strategy.networkTimeoutSeconds env = Except.error err) :
    (∀ r, env.cacheMatch = some r → (handleRequest strategy env).result = Except.ok r)
    ∧ (env.cacheMatch = none →
        (handleRequest strategy env).result = Except.error NetworkFallbackError
        ∧ NetworkFallbackError.message ≠ "") := by
  constructor
  · intro r hr
    simp [handleRequest, h, hr]
  · intro hr
    exact ⟨by simp [handleRequest, h, hr], by decide⟩

/-- C3 witness: a network error with a cache hit returns the cached
response; the same error with a cache miss raises the fallback error. -/
theorem handleRequest_fallback_witness :
    (handleRequest ⟨"c", NetworkTimeoutSetting.finite 10, none⟩
        ⟨Except.error ⟨"boom"⟩, true, some ⟨"cached", 200, "", []⟩, true, 0⟩).result
      = Except.ok ⟨"cached", 200, "", []⟩
    ∧ (handleRequest ⟨"c", NetworkTimeoutSetting.finite 10, none⟩
        ⟨Except.error ⟨"boom"⟩, true, none, true, 0⟩).result
      = Except.error NetworkFallbackError
    ∧ NetworkFallbackError.message ≠ "" :=
  ⟨(handleRequest_fallback ⟨"c", NetworkTimeoutSetting.finite 10, none⟩
      ⟨Except.error ⟨"boom"⟩, true, some ⟨"cached", 200, "", []⟩, true, 0⟩ ⟨"boom"⟩ rfl).1
      ⟨"cached", 200, "", []⟩ rfl,
   ((handleRequest_fallback ⟨"c", NetworkTimeoutSetting.finite 10, none⟩
      ⟨Except.error ⟨"boom"⟩, true, none, true, 0⟩ ⟨"boom"⟩ rfl).2 rfl).1,
   ((handleRequest_fallback ⟨"c", NetworkTimeoutSetting.finite 10, none⟩
      ⟨Except.error ⟨"boom"⟩, true, none, true, 0⟩ ⟨"boom"⟩ rfl).2 rfl).2⟩

/-- C4: when the network settles successfully before the timeout,
`handleRequest` returns exactly the original network response — whatever
the validation verdict, and independently of the outcome of the
fire-and-forget `cache.put` — and the annotated (timestamped) clone is a
different value, never the one returned. -/
theorem handleRequest_returns_original (strategy : NetworkFirst) (env : FetchEnv)
    (res : Response)
    (h : fetchWithTimeout strategy.networkTimeoutSeconds env = Except.ok res) :
    (handleRequest strategy env).result = Except.ok res
    ∧ (∀ b : Bool,
        (handleRequest strategy { env with putSucceeds := b }).result = Except.ok res)
    ∧ addTimestampHeader env.now res ≠ res := by
  have hmain : ∀ env' : FetchEnv,
      fetchWithTimeout strategy.networkTimeoutSeconds env' = Except.ok res →
      (handleRequest strategy env').result = Except.ok res := by
    intro env' h'
    simp only [handleRequest, h']
    by_cases hv : validateResponse strategy.cacheableResponse res <;> simp [hv]
  refine ⟨hmain env h, ?_, ?_⟩
  · intro b
    refine hmain _ ?_
    have hsame : fetchWithTimeout strategy.networkTimeoutSeconds { env with putSucceeds := b }
        = fetchWithTimeout strategy.networkTimeoutSeconds env := by
      cases strategy.networkTimeoutSeconds <;> rfl
    rw [hsame, h]
  · intro hEq
    have hlen := congrArg (fun r : Response => r.headers.length) hEq
    simp [addTimestampHeader] at hlen

/-- C4 witness: a status-500 response that fails the `{statuses:[200]}`
policy is still returned verbatim, with the cache write failing or
succeeding alike. -/
theorem handleRequest_returns_original_witness :
    (handleRequest ⟨"c", NetworkTimeoutSetting.finite 10, some ⟨some [200], none⟩⟩
        ⟨Except.ok ⟨"live", 500, "", []⟩, true, none, false, 7⟩).result
      = Except.ok ⟨"live", 500, "", []⟩
    ∧ (handleRequest ⟨"c", NetworkTimeoutSetting.finite 10, some ⟨some [200], none⟩⟩
        ⟨Except.ok ⟨"live", 500, "", []⟩, true, none, true, 7⟩).result
      = Except.ok ⟨"live", 500, "", []⟩
    ∧ addTimestampHeader 7 ⟨"live", 500, "", []⟩ ≠ ⟨"live", 500, "", []⟩ :=
  ⟨(handleRequest_returns_original ⟨"c", NetworkTimeoutSetting.finite 10, some ⟨some [200], none⟩⟩
      ⟨Except.ok ⟨"live", 500, "", []⟩, true, none, false, 7⟩ ⟨"live", 500, "", []⟩ rfl).1,
   (handleRequest_returns_original ⟨"c", NetworkTimeoutSetting.finite 10, some ⟨some [200], none⟩⟩
      ⟨Except.ok ⟨"live", 500, "", []⟩, true, none, false, 7⟩ ⟨"live", 500, "", []⟩ rfl).2.1 true,
   (handleRequest_returns_original ⟨"c", NetworkTimeoutSetting.finite 10, some ⟨some [200], none⟩⟩
      ⟨Except.ok ⟨"live", 500, "", []⟩, true, none, false, 7⟩ ⟨"live", 500, "", []⟩ rfl).2.2⟩

/-- C7: the constructor defaults the network timeout to 10 seconds when the
option is absent; with a finite timeout a losing fetch yields the timeout
rejection; with `Infinity` no timer exists and the outcome is the fetch's
alone. -/
theorem networkTimeout_default_and_race :
    (∀ (name : String) (cr : Option CacheableResponseOptions),
        (mkNetworkFirst name ⟨none, cr⟩).networkTimeoutSeconds
          = NetworkTimeoutSetting.finite 10)
    ∧ (∀ (t : Nat) (env : FetchEnv),
        fetchWithTimeout (NetworkTimeoutSetting.finite t) { env with fetchBeatsTimer := false }
          = Except.error (timeoutError t))
    ∧ (∀ env : FetchEnv,
        fetchWithTimeout NetworkTimeoutSetting.infinity env = env.fetchResult) :=
  ⟨fun name cr => rfl, fun t env => rfl, fun env => rfl⟩

/-- C10: whatever error made the network path fail, a cache miss makes
`handleRequest` throw an error whose message is exactly the fixed string
`No response received from fetch: Timeout` (the caught error is discarded,
never interpolated). -/
theorem handleRequest_miss_fixed_message (strategy : NetworkFirst) (env : FetchEnv)
    (err : JSError)
    (hf : fetchWithTimeout strategy.networkTimeoutSeconds env = Except.error err)
    (hm : env.cacheMatch = none) :
    (handleRequest strategy env).result =
      Except.error ⟨"No response received from fetch: Timeout"⟩ := by
  simp [handleRequest, hf, hm, NetworkFallbackError]

/-- C10 witness: a connection-reset failure with a cache miss produces the
fixed message, not the underlying error's. -/
theorem handleRequest_miss_fixed_message_witness :
    (handleRequest ⟨"c", NetworkTimeoutSetting.finite 10, none⟩
        ⟨Except.error ⟨"connection reset"⟩, true, none, true, 0⟩).result
      = Except.error ⟨"No response received from fetch: Timeout"⟩ :=
  handleRequest_miss_fixed_message ⟨"c", NetworkTimeoutSetting.finite 10, none⟩
    ⟨Except.error ⟨"connection reset"⟩, true, none, true, 0⟩ ⟨"connection reset"⟩ rfl rfl
